import Mathlib

/-!
Verification development for the terminal chat client in `main.py`
(repository OTFiles/AI_CLI).  Python strings are modelled as `List Char`,
machine integers as `Int`/`Nat`, wall-clock time as an explicit rational
parameter, and the file system / network / selector widgets as explicit
parameters of the transition functions.
-/

namespace AICli

/-- Python strings are modelled as lists of characters. -/
abbrev Str := List Char

/-- Constant `MAX_FILE_SIZE = 1024 * 1024` (main.py line 23). -/
def MAX_FILE_SIZE : Nat := 1024 * 1024

/-- Constant `MAX_MESSAGE_LENGTH = 5000` (main.py line 26). -/
def MAX_MESSAGE_LENGTH : Nat := 5000

/-- A message role (`"user"`, `"assistant"`, `"system"` strings in the source). -/
inductive Role where
  | user
  | assistant
  | system
  deriving DecidableEq, Repr, BEq

/-- A conversation message: `{"role": ..., "content": ...}`. -/
structure Message where
  role : Role
  content : Str
  deriving DecidableEq, Repr, BEq

/-- Python `str.startswith(pre)`: `pyStartsWith s pre` is true iff `pre` is a
prefix of `s`. -/
def pyStartsWith : Str → Str → Bool
  | _, [] => true
  | [], _ :: _ => false
  | c :: s, d :: p => c == d && pyStartsWith s p

/-- Python `str.endswith(suf)`. -/
def pyEndsWith (s suf : Str) : Bool := pyStartsWith s.reverse suf.reverse

/-- The ASCII whitespace characters recognised by Python `str.strip()`
(space, tab, newline, vertical tab, form feed, carriage return). -/
def isPySpace (c : Char) : Bool :=
  c == ' ' || c == '\t' || c == '\n' || c == '\x0b' || c == '\x0c' || c == '\r'

/-- Python `str.strip()`. -/
def pyStrip (s : Str) : Str :=
  ((s.dropWhile isPySpace).reverse.dropWhile isPySpace).reverse

/-- Worker for `strReplace`; the fuel bounds the recursion and is always
at least `s.length` at the call site, so it never runs out. -/
def strReplaceAux (old new : Str) : Nat → Str → Str
  | 0, s => s
  | fuel + 1, s =>
    if pyStartsWith s old then new ++ strReplaceAux old new fuel (s.drop old.length)
    else
      match s with
      | [] => []
      | c :: rest => c :: strReplaceAux old new fuel rest

/-- Python `str.replace(old, new)` (all occurrences, scanned left to right).
Every call site in `main.py` passes a nonempty `old`; for `old = []` we
return `s` unchanged. -/
def strReplace (s old new : Str) : Str :=
  if old = [] then s else strReplaceAux old new s.length s

/-- The literal text `{{:F` that opens a file tag. -/
def fileTagOpen : Str := "\x7b\x7b:F".toList

/-- The literal text `}}` that closes a file tag. -/
def fileTagClose : Str := "\x7d\x7d".toList

/-- The file tag `{{:F<p>}}` built from a path, as by the f-strings
`f"\x7b\x7b\x7b\x7b:F\x7bfile_path\x7d\x7d\x7d\x7d\x7d"` in the source. -/
def mkFileTag (p : Str) : Str := fileTagOpen ++ p ++ fileTagClose

/-- Worker for `findTags`: one step of the scan of
`re.findall(r'\x5c\x7b\x5c\x7b:F([^\x7d]+)\x5c\x7d\x5c\x7d', input_str)`.
At each position the pattern `{{:F`, then one or more non-`\x7d` characters,
then `}}` is attempted; on success the capture is recorded and scanning
resumes after the match, otherwise the scan advances one character.  The
fuel is at least the string length at the call site. -/
def findTagsAux : Nat → Str → List Str
  | 0, _ => []
  | _ + 1, [] => []
  | fuel + 1, s@(_ :: rest) =>
    if pyStartsWith s fileTagOpen then
      let body := s.drop 4
      let cap := body.takeWhile (fun c => c != '\x7d')
      if !cap.isEmpty && pyStartsWith (body.drop cap.length) fileTagClose then
        cap :: findTagsAux fuel (body.drop (cap.length + 2))
      else findTagsAux fuel rest
    else findTagsAux fuel rest

/-- Python `re.findall(r'\x5c\x7b\x5c\x7b:F([^\x7d]+)\x5c\x7d\x5c\x7d', s)`:
the list of captured groups of all non-overlapping matches. -/
def findTags (s : Str) : List Str := findTagsAux s.length s

/-- A file on disk: path, `os.path.getsize` result, and the text obtained
by reading it (reads are modelled as always succeeding). -/
structure FSEntry where
  path : Str
  size : Nat
  content : Str
  deriving DecidableEq, Repr

/-- The file system visible to the program. -/
abbrev FS := List FSEntry

/-- Lookup modelling `os.path.exists` / `open(...)`. -/
def fsLookup (fs : FS) (p : Str) : Option FSEntry := fs.find? (fun e => e.path == p)

/-- Diagnostic `f"[文件不存在: \x7bfile_path\x7d]"` (main.py line 336). -/
def fileMissingMsg (p : Str) : Str := "[文件不存在: ".toList ++ p ++ "]".toList

/-- Diagnostic `f"[文件过大(>\x7bMAX_FILE_SIZE/1024\x7dKB): \x7bfile_path\x7d]"`; the Python float
division renders as `1024.0` (main.py line 342). -/
def fileTooLargeMsg (p : Str) : Str := "[文件过大(>1024.0KB): ".toList ++ p ++ "]".toList

/-- The labelled fenced block `\n```文件内容:<p>\n<content>\n```\n`
substituted for a resolved file tag (main.py line 350). -/
def fileBlock (p content : Str) : Str :=
  "\n```文件内容:".toList ++ p ++ "\n".toList ++ content ++ "\n```\n".toList

/-- One iteration of the loop in `replace_file_tags` (main.py lines 331-353):
strip the captured path, check existence and size, and replace the tag
rebuilt from the *stripped* path. -/
def expandTag (fs : FS) (s : Str) (rawPath : Str) : Str :=
  let fp := pyStrip rawPath
  match fsLookup fs fp with
  | none => strReplace s (mkFileTag fp) (fileMissingMsg fp)
  | some e =>
    if MAX_FILE_SIZE < e.size then strReplace s (mkFileTag fp) (fileTooLargeMsg fp)
    else strReplace s (mkFileTag fp) (fileBlock fp e.content)

/-- Function `replace_file_tags(input_str)` (main.py lines 323-355): find all tag
captures in the original string, then fold the replacement loop over them. -/
def replace_file_tags (fs : FS) (input : Str) : Str :=
  (findTags input).foldl (expandTag fs) input

/-- Marker `"\n...（响应过长，已截断）"`, the truncation marker appended to an
over-long streamed response (main.py lines 1249 and 1348). -/
def truncMarker : Str := "\n...（响应过长，已截断）".toList

/-- Placeholder `"正在思考..."`, the assistant placeholder seeded at submission time
(main.py line 1441). -/
def thinkingText : Str := "正在思考...".toList

/-- Notice `"<AI未返回有效响应>"`, the notice appended on an empty result
(main.py lines 1258 and 1368). -/
def noResponseText : Str := "<AI未返回有效响应>".toList

/-- One content delta of the streaming loop (main.py lines 1244-1249 and
1343-1348): append to the accumulator and clamp to `MAX_MESSAGE_LENGTH`. -/
def accumStep (acc delta : Str) : Str :=
  let f := acc ++ delta
  if MAX_MESSAGE_LENGTH < f.length then f.take MAX_MESSAGE_LENGTH ++ truncMarker else f

/-- The final accumulator value after all content deltas of a stream. -/
def streamAccum (deltas : List Str) : Str := deltas.foldl accumStep []

/-- Worker for `processDeltas`: each delta overwrites the last message of
the log with the running accumulator (main.py line 1252 / 1351). -/
def processDeltasGo : List Message → Str → List Str → List Message × Str
  | ms, acc, [] => (ms, acc)
  | ms, acc, d :: ds =>
    let acc' := accumStep acc d
    processDeltasGo (ms.set (ms.length - 1) ⟨.assistant, acc'⟩) acc' ds

/-- The effect of a successful background exchange on the conversation log
(`send_openai_request` lines 1239-1258, `send_curl_request` lines 1324-1368,
success path): per-delta in-place rewrite of the last message; if the
accumulated result is empty, a system notice is appended. -/
def processDeltas (ms : List Message) (deltas : List Str) : List Message :=
  let r := processDeltasGo ms [] deltas
  if r.2.isEmpty then r.1 ++ [⟨.system, noResponseText⟩] else r.1

/-- User messages have their file tags expanded before transmission
(main.py lines 1426-1430). -/
def sendTransform (fs : FS) (m : Message) : Message :=
  if m.role == .user then ⟨m.role, replace_file_tags fs m.content⟩ else m

/-- One iteration of the window-building loop of `send_message`
(main.py lines 1420-1438): skip system messages, keep at most 10 entries,
popping the oldest when full. -/
def buildStep (fs : FS) (acc : List Message) (m : Message) : List Message :=
  if m.role == .system then acc
  else if acc.length < 10 then acc ++ [sendTransform fs m]
  else acc.drop 1 ++ [sendTransform fs m]

/-- List `messages_to_send` as built by `send_message` (main.py lines 1419-1438). -/
def buildMessagesToSend (fs : FS) (msgs : List Message) : List Message :=
  msgs.foldl (buildStep fs) []

/-- Specification view of the window: all non-system messages, transformed,
in order. -/
def nonSystemTransformed (fs : FS) (msgs : List Message) : List Message :=
  (msgs.filter (fun m => !(m.role == .system))).map (sendTransform fs)

/-- A `ChatConfig` provider profile (main.py lines 35-58). -/
structure ChatConfig where
  name : Str
  api_base : Str
  api_key : Str
  model : Str
  request_type : Str
  headers : List (Str × Str)
  is_infini : Bool
  deriving DecidableEq, Repr

/-- The shape of a persisted conversation file as consumed by
`load_history` (messages, provider, model). -/
structure SavedData where
  messages : List Message
  provider : Str
  model : Str
  deriving DecidableEq, Repr

/-- External collaborator results consumed during one key-processing step:
selector widget outcomes, file-system probes and I/O outcomes, the
confirmation keystroke of the purge command, and the timestamp used for a
default save file name. -/
structure Ext where
  selectedFile : Option Str
  selectedConfig : Option ChatConfig
  histFile : Option Str
  fileExists : Bool
  loadOutcome : Except Str SavedData
  saveResult : Except Str Unit
  cleanResult : Except Str Unit
  confirmKey : Int
  nowTs : Nat

/-- The mutable state of `ChatUI` (main.py lines 550-571) that the modelled
operations read or write.  `redrawCalls` instruments every full-redraw
request as a `(force, performed)` pair; `sentPayloads` instruments the
message lists handed to the network client.  Both are write-only ghost
fields: no modelled operation reads them. -/
structure UIState where
  current_input : Str
  cursor_pos : Int
  command_mode : Bool
  command_input : Str
  command_cursor_pos : Int
  saved_input : Str
  saved_cursor_pos : Int
  input_history : List Str
  history_index : Int
  messages : List Message
  file_placeholders : List (Str × Str)
  configs : List ChatConfig
  current_config : ChatConfig
  last_redraw_time : ℚ
  dirty : Bool
  redrawCalls : List (Bool × Bool)
  sentPayloads : List (List Message)

/-- Constant `self.redraw_throttle = 0.1` seconds (main.py line 561). -/
def redraw_throttle : ℚ := 1 / 10

/-- Method `ChatUI.redraw` (main.py lines 764-776): a request arriving less than
`redraw_throttle` after the previous performed full redraw is dropped
unless forced; a performed redraw updates `last_redraw_time`.  Each request
is recorded as `(force, performed)`. -/
def redraw (now : ℚ) (force : Bool) (s : UIState) : UIState :=
  if force = false ∧ now - s.last_redraw_time < redraw_throttle then
    { s with redrawCalls := s.redrawCalls ++ [(force, false)] }
  else
    { s with last_redraw_time := now,
             redrawCalls := s.redrawCalls ++ [(force, true)] }

/-- Marker `" ...（消息过长，已截断）"`, the marker for over-long system messages
(main.py line 1587). -/
def sysTruncMarker : Str := " ...（消息过长，已截断）".toList

/-- Method `ChatUI.add_system_message` (main.py lines 1582-1594): truncate, append
a system-role message, mark dirty, and force a full redraw.  The
`is_error` argument only selects a display colour and is not modelled. -/
def addSystemMessage (now : ℚ) (message : Str) (s : UIState) : UIState :=
  let m := if MAX_MESSAGE_LENGTH < message.length then
             message.take MAX_MESSAGE_LENGTH ++ sysTruncMarker
           else message
  redraw now true { s with messages := s.messages ++ [⟨.system, m⟩], dirty := true }

/-- Method `ChatUI.enter_command_mode` (main.py lines 918-926). -/
def enter_command_mode (s : UIState) : UIState :=
  { s with command_mode := true,
           saved_input := s.current_input,
           saved_cursor_pos := s.cursor_pos,
           current_input := [],
           cursor_pos := 0,
           command_input := [],
           command_cursor_pos := 0 }

/-- Method `ChatUI.exit_command_mode(restore_input=True)` (main.py lines 928-938). -/
def exit_command_mode (restore_input : Bool) (s : UIState) : UIState :=
  if restore_input then
    { s with command_mode := false,
             current_input := s.saved_input,
             cursor_pos := s.saved_cursor_pos,
             saved_input := [],
             saved_cursor_pos := 0 }
  else
    { s with command_mode := false,
             current_input := [],
             cursor_pos := 0,
             saved_input := [],
             saved_cursor_pos := 0 }

/-- Character insertion at the cursor (main.py lines 909-912 and 1023-1026):
`text[:pos] + char + text[pos:]`, cursor advanced by `len(char)`. -/
def insertAt (text : Str) (pos : Int) (c : Str) : Str × Int :=
  (text.take pos.toNat ++ c ++ text.drop pos.toNat, pos + c.length)

/-- Backspace at the cursor (main.py lines 851-857 and 954-960):
`text[:pos-1] + text[pos:]` and cursor decrement, a no-op at position 0. -/
def backspaceAt (text : Str) (pos : Int) : Str × Int :=
  if 0 < pos then (text.take (pos - 1).toNat ++ text.drop pos.toNat, pos - 1)
  else (text, pos)

/-- Python list indexing `l[i]` with negative-index semantics.  Out-of-range
access raises `IndexError` in Python; that state is unreachable from the
guards in `process_input`, and is modelled by the default `[]`. -/
def pyIdx (l : List Str) (i : Int) : Str :=
  if 0 ≤ i then l.getD i.toNat []
  else l.getD (l.length - (-i).toNat) []

/-- Python dict assignment `d[k] = v` on an insertion-ordered dict. -/
def dictInsert (d : List (Str × Str)) (k v : Str) : List (Str × Str) :=
  if d.any (fun kv => kv.1 == k) then
    d.map (fun kv => if kv.1 == k then (k, v) else kv)
  else d ++ [(k, v)]

/-- curses key codes used by `process_input` / `process_command_input`. -/
def KEY_DOWN : Int := 258
def KEY_UP : Int := 259
def KEY_LEFT : Int := 260
def KEY_RIGHT : Int := 261
def KEY_BACKSPACE : Int := 263
def KEY_ENTER : Int := 343

/-- Continuation-byte collection of the multi-byte branch of
`process_input` (main.py lines 875-887): up to two non-blocking reads,
stopping at `-1` or a value outside `0..255`.  `pending` models the queue
of pending raw key codes; an exhausted queue reads `-1`. -/
def collectBytesMain : Nat → List Int → List Int
  | 0, _ => []
  | _ + 1, [] => []
  | n + 1, k :: rest =>
    if k ≠ -1 ∧ 0 ≤ k ∧ k ≤ 255 then k :: collectBytesMain n rest else []

/-- Continuation-byte collection of the multi-byte branch of
`process_command_input` (main.py lines 989-1001), duplicated in the
source. -/
def collectBytesCommand : Nat → List Int → List Int
  | 0, _ => []
  | _ + 1, [] => []
  | n + 1, k :: rest =>
    if k ≠ -1 ∧ 0 ≤ k ∧ k ≤ 255 then k :: collectBytesCommand n rest else []

/-- Is `b` a UTF-8 continuation byte (`0x80..0xBF`)? -/
def isContByte (b : Nat) : Bool := 128 ≤ b && b ≤ 191

/-- Worker for `utf8DecodeBytes`: strict UTF-8 decoding as performed by
Python `bytes.decode('utf-8')` (rejecting stray continuation bytes,
overlong forms, surrogates and code points beyond `0x10FFFF`).  The fuel
is at least the list length at the call site. -/
def utf8DecodeAux : Nat → List Nat → Option Str
  | 0, [] => some []
  | 0, _ :: _ => none
  | _ + 1, [] => some []
  | fuel + 1, b :: rest =>
    if b ≤ 127 then
      (utf8DecodeAux fuel rest).map (fun cs => Char.ofNat b :: cs)
    else if b ≤ 193 then none
    else if b ≤ 223 then
      match rest with
      | b1 :: r =>
        if isContByte b1 then
          (utf8DecodeAux fuel r).map
            (fun cs => Char.ofNat ((b - 192) * 64 + (b1 - 128)) :: cs)
        else none
      | [] => none
    else if b ≤ 239 then
      match rest with
      | b1 :: b2 :: r =>
        if isContByte b1 && isContByte b2 then
          let cp := (b - 224) * 4096 + (b1 - 128) * 64 + (b2 - 128)
          if cp < 2048 then none
          else if 55296 ≤ cp ∧ cp ≤ 57343 then none
          else (utf8DecodeAux fuel r).map (fun cs => Char.ofNat cp :: cs)
        else none
      | _ => none
    else if b ≤ 244 then
      match rest with
      | b1 :: b2 :: b3 :: r =>
        if isContByte b1 && isContByte b2 && isContByte b3 then
          let cp := (b - 240) * 262144 + (b1 - 128) * 4096 + (b2 - 128) * 64 + (b3 - 128)
          if cp < 65536 then none
          else if 1114111 < cp then none
          else (utf8DecodeAux fuel r).map (fun cs => Char.ofNat cp :: cs)
        else none
      | _ => none
    else none

/-- Python `bytes(bs).decode('utf-8')`: `none` models `UnicodeDecodeError`. -/
def utf8DecodeBytes (bs : List Nat) : Option Str := utf8DecodeAux bs.length bs

/-- The character-decoding tail of `ChatUI.process_input`
(main.py lines 863-907): discard key codes outside `0..0x10FFFF`; for a
lead code above 127 collect continuation bytes and decode as UTF-8,
falling back to `chr(lead)` on `UnicodeDecodeError` and discarding on
`ValueError` from `bytes(...)` (lead above 255); ASCII codes decode as
themselves.  `none` means the key is discarded with no character
inserted. -/
def decodeKeyMain (key : Int) (pending : List Int) : Option Str :=
  if key < 0 ∨ 1114111 < key then none
  else if 127 < key then
    let seq := key :: collectBytesMain 2 pending
    if seq.all (fun b => decide (0 ≤ b ∧ b ≤ 255)) then
      match utf8DecodeBytes (seq.map Int.toNat) with
      | some cs => some cs
      | none => some [Char.ofNat key.toNat]
    else none
  else some [Char.ofNat key.toNat]

/-- The character-decoding tail of `ChatUI.process_command_input`
(main.py lines 977-1021), duplicated verbatim in the source. -/
def decodeKeyCommand (key : Int) (pending : List Int) : Option Str :=
  if key < 0 ∨ 1114111 < key then none
  else if 127 < key then
    let seq := key :: collectBytesCommand 2 pending
    if seq.all (fun b => decide (0 ≤ b ∧ b ≤ 255)) then
      match utf8DecodeBytes (seq.map Int.toNat) with
      | some cs => some cs
      | none => some [Char.ofNat key.toNat]
    else none
  else some [Char.ofNat key.toNat]

/-- Method `ChatUI.send_message` (main.py lines 1375-1465) as a foreground
transition: the background network exchange it spawns is modelled
separately by `processDeltas`.  The dead local `processed_input`
computation (lines 1384-1412), whose value is never used, is omitted. -/
def send_message (fs : FS) (now : ℚ) (s : UIState) : UIState :=
  if pyStrip s.current_input = [] then s
  else
    let s := { s with input_history := s.current_input :: s.input_history,
                      history_index := -1 }
    let s := { s with messages := s.messages ++ [⟨.user, s.current_input⟩],
                      dirty := true }
    let s := redraw now true s
    let payload := buildMessagesToSend fs s.messages
    let s := { s with sentPayloads := s.sentPayloads ++ [payload] }
    let s := { s with messages := s.messages ++ [⟨.assistant, thinkingText⟩],
                      dirty := true }
    let s := redraw now true s
    { s with current_input := [], cursor_pos := 0 }

/-- The first whitespace-separated token of `command.split()[0]`.  For a
whitespace-only command containing a space Python would raise
`IndexError`; that corner is modelled by the empty token. -/
def pySplitHead (c : Str) : Str :=
  (c.dropWhile isPySpace).takeWhile (fun ch => !isPySpace ch)

/-- Notice `f"未知命令: ..."` (main.py line 1185). -/
def unknownCmdMsg (command : Str) : Str :=
  "未知命令: ".toList ++ (if command.contains ' ' then pySplitHead command else command)

/-- Python `command.split(' ', 1)`: head and optional remainder. -/
def pySplitOnce (c : Str) : Str × Option Str :=
  let a := c.takeWhile (fun ch => ch != ' ')
  let rest := c.drop a.length
  match rest with
  | [] => (a, none)
  | _ :: r => (a, some r)

/-- Python `Path.name`: the final component of a path string. -/
def baseName (p : Str) : Str := (p.reverse.takeWhile (fun c => c != '/')).reverse

/-- Method `ChatUI.load_history` (main.py lines 1188-1224): keep only user and
assistant messages, restore or fabricate the provider configuration,
append two notices, and rebuild the placeholder table by scanning the
loaded user messages (captures are not stripped here). -/
def load_history (now : ℚ) (outcome : Except Str SavedData) (pathStr : Str)
    (s : UIState) : UIState :=
  match outcome with
  | .error e => addSystemMessage now ("加载失败: ".toList ++ e) s
  | .ok data =>
    let msgs := data.messages.filter
      (fun m => m.role == .user || m.role == .assistant)
    let cfg := (s.configs.find?
        (fun c => c.name == data.provider && c.model == data.model)).getD
      ⟨data.provider, [], [], data.model, "openai".toList, [], false⟩
    let s := { s with messages := msgs, current_config := cfg }
    let s := addSystemMessage now ("已加载历史记录: ".toList ++ baseName pathStr) s
    let s := addSystemMessage now
      ("提供商: ".toList ++ data.provider ++ ", 模型: ".toList ++ data.model) s
    { s with file_placeholders :=
        (msgs.foldl
          (fun d m =>
            if m.role == .user then
              (findTags m.content).foldl (fun d p => dictInsert d (mkFileTag p) p) d
            else d)
          []) }

/-- The `file`/`f` branch of `handle_command` (main.py lines 1034-1054):
on a selection, append the placeholder to the saved main input (the
command was entered from command mode) and record it in the placeholder
table; only a partial redraw is issued. -/
def cmdFile (ext : Ext) (s : UIState) : UIState :=
  match ext.selectedFile with
  | none => s
  | some path =>
    let placeholder := mkFileTag path
    let s :=
      if s.saved_input ≠ [] then
        let ns := s.saved_input ++ " ".toList ++ placeholder
        { s with saved_input := ns, saved_cursor_pos := (ns.length : Int) }
      else
        { s with saved_input := placeholder,
                 saved_cursor_pos := (placeholder.length : Int) }
    { s with file_placeholders := dictInsert s.file_placeholders placeholder path }

/-- The `save`/`s` branch of `handle_command` (main.py lines 1071-1126).
The written JSON payload is external output; only the state effects
(system notice and forced redraw) are modelled. -/
def cmdSave (ext : Ext) (now : ℚ) (command : Str) (s : UIState) : UIState :=
  let parts := pySplitOnce command
  let filename0 :=
    match parts.2 with
    | some f => if f = [] then none else some f
    | none => none
  let filename1 :=
    match filename0 with
    | some f => f
    | none => "chat_".toList ++ Nat.toDigits 10 ext.nowTs ++ ".json".toList
  let filename :=
    if pyEndsWith filename1 ".json".toList then filename1
    else filename1 ++ ".json".toList
  let pathStr := "chat_history/".toList ++ filename
  let s :=
    match ext.saveResult with
    | .ok _ => addSystemMessage now ("对话已保存到: ".toList ++ pathStr) s
    | .error e => addSystemMessage now ("保存失败: ".toList ++ e) s
  redraw now true s

/-- The `load`/`l` branch of `handle_command` (main.py lines 1128-1147). -/
def cmdLoad (ext : Ext) (now : ℚ) (command : Str) (s : UIState) : UIState :=
  let parts := pySplitOnce command
  let filename :=
    match parts.2 with
    | some f => if f = [] then none else some f
    | none => none
  match filename with
  | some f =>
    let pathStr := "chat_history/".toList ++ f
    if ext.fileExists then
      redraw now true (load_history now ext.loadOutcome pathStr s)
    else
      addSystemMessage now ("文件不存在: ".toList ++ pathStr) s
  | none =>
    match ext.histFile with
    | some p => redraw now true (load_history now ext.loadOutcome p s)
    | none => redraw now true s

/-- The `clean`/`cn` branch of `handle_command` (main.py lines 1156-1179):
confirmation prompt, then either purge (an external deletion whose
success is `ext.cleanResult`) or a cancellation notice. -/
def cmdClean (ext : Ext) (now : ℚ) (s : UIState) : UIState :=
  let s := addSystemMessage now "确定要清理所有历史记录吗？(y/n)".toList s
  let s := redraw now true s
  let s :=
    if ext.confirmKey = 121 ∨ ext.confirmKey = 89 then
      match ext.cleanResult with
      | .ok _ => addSystemMessage now "所有历史记录已清理".toList s
      | .error e => addSystemMessage now ("清理失败: ".toList ++ e) s
    else
      addSystemMessage now "清理操作已取消".toList s
  redraw now true s

/-- Method `ChatUI.handle_command` (main.py lines 1032-1186): prefix dispatch in
source order; the returned flag is the exit signal. -/
def handleCommand (ext : Ext) (now : ℚ) (command : Str) (s : UIState) :
    UIState × Bool :=
  if pyStartsWith command "file".toList || pyStartsWith command "f".toList then
    (cmdFile ext s, false)
  else if pyStartsWith command "provider".toList || pyStartsWith command "p".toList then
    let s :=
      match ext.selectedConfig with
      | some c =>
        addSystemMessage now
          ("已切换到: ".toList ++ c.name ++ " (".toList ++ c.model ++ ")".toList)
          { s with current_config := c }
      | none => s
    (redraw now true s, false)
  else if pyStartsWith command "clear".toList || pyStartsWith command "cr".toList then
    let s := { s with messages := [], file_placeholders := [] }
    let s := addSystemMessage now "对话历史已清除".toList s
    (redraw now true s, false)
  else if pyStartsWith command "save".toList || pyStartsWith command "s".toList then
    (cmdSave ext now command s, false)
  else if pyStartsWith command "load".toList || pyStartsWith command "l".toList then
    (cmdLoad ext now command s, false)
  else if pyStartsWith command "history".toList || pyStartsWith command "h".toList then
    (redraw now true s, false)
  else if pyStartsWith command "clean".toList || pyStartsWith command "cn".toList then
    (cmdClean ext now s, false)
  else if pyStartsWith command "exit".toList || pyStartsWith command "quit".toList then
    (s, true)
  else
    (addSystemMessage now (unknownCmdMsg command) s, false)

/-- Command submit in command mode (main.py lines 942-946): run the command
and leave command mode.  Note the source discards the exit flag of
`handle_command` here and always returns `False`. -/
def commandSubmit (ext : Ext) (now : ℚ) (s : UIState) : UIState :=
  exit_command_mode true (handleCommand ext now s.command_input s).1

/-- Backspace on the command buffer (main.py lines 954-960). -/
def commandBackspace (s : UIState) : UIState :=
  let r := backspaceAt s.command_input s.command_cursor_pos
  { s with command_input := r.1, command_cursor_pos := r.2 }

/-- Cursor left on the command buffer (main.py lines 963-967). -/
def commandLeft (s : UIState) : UIState :=
  { s with command_cursor_pos :=
      if 0 < s.command_cursor_pos then s.command_cursor_pos - 1
      else s.command_cursor_pos }

/-- Cursor right on the command buffer (main.py lines 970-974). -/
def commandRight (s : UIState) : UIState :=
  { s with command_cursor_pos :=
      if s.command_cursor_pos < s.command_input.length then s.command_cursor_pos + 1
      else s.command_cursor_pos }

/-- Character insertion into the command buffer (main.py lines 1023-1026),
applied when the decoder yields a character. -/
def commandInsert (key : Int) (pending : List Int) (s : UIState) : UIState :=
  match decodeKeyCommand key pending with
  | some c =>
    let r := insertAt s.command_input s.command_cursor_pos c
    { s with command_input := r.1, command_cursor_pos := r.2 }
  | none => s

/-- Method `ChatUI.process_command_input` (main.py lines 940-1030). -/
def processCommandInput (ext : Ext) (now : ℚ) (key : Int) (pending : List Int)
    (s : UIState) : UIState × Bool :=
  if key = KEY_ENTER ∨ key = 10 ∨ key = 13 then (commandSubmit ext now s, false)
  else if key = 27 then (exit_command_mode true s, false)
  else if key = KEY_BACKSPACE ∨ key = 127 then (commandBackspace s, false)
  else if key = KEY_LEFT then (commandLeft s, false)
  else if key = KEY_RIGHT then (commandRight s, false)
  else (commandInsert key pending s, false)

/-- Recall of the previous submitted input on `KEY_UP`
(main.py lines 813-821). -/
def recallUp (s : UIState) : UIState :=
  if s.input_history ≠ [] then
    if s.history_index < (s.input_history.length : Int) - 1 then
      let idx := s.history_index + 1
      let text := pyIdx s.input_history idx
      { s with history_index := idx, current_input := text,
               cursor_pos := (text.length : Int) }
    else s
  else s

/-- Recall of the next submitted input on `KEY_DOWN`
(main.py lines 823-834). -/
def recallDown (s : UIState) : UIState :=
  if s.input_history ≠ [] then
    if 0 < s.history_index then
      let idx := s.history_index - 1
      let text := pyIdx s.input_history idx
      { s with history_index := idx, current_input := text,
               cursor_pos := (text.length : Int) }
    else if s.history_index = 0 then
      { s with history_index := -1, current_input := [], cursor_pos := 0 }
    else s
  else s

/-- Cursor left on the main buffer (main.py lines 837-841). -/
def mainLeft (s : UIState) : UIState :=
  { s with cursor_pos :=
      if 0 < s.cursor_pos then s.cursor_pos - 1 else s.cursor_pos }

/-- Cursor right on the main buffer (main.py lines 844-848). -/
def mainRight (s : UIState) : UIState :=
  { s with cursor_pos :=
      if s.cursor_pos < s.current_input.length then s.cursor_pos + 1
      else s.cursor_pos }

/-- Backspace on the main buffer (main.py lines 851-857). -/
def mainBackspace (s : UIState) : UIState :=
  let r := backspaceAt s.current_input s.cursor_pos
  { s with current_input := r.1, cursor_pos := r.2 }

/-- Character insertion into the main buffer (main.py lines 909-912),
applied when the decoder yields a character. -/
def mainInsert (key : Int) (pending : List Int) (s : UIState) : UIState :=
  match decodeKeyMain key pending with
  | some c =>
    let r := insertAt s.current_input s.cursor_pos c
    { s with current_input := r.1, cursor_pos := r.2 }
  | none => s

/-- Method `ChatUI.process_input` (main.py lines 797-916): the normal-mode key
dispatch, delegating to `process_command_input` in command mode.  The
partial redraws (`redraw_input_only`) repaint only the screen and are not
modelled. -/
def processInput (fs : FS) (ext : Ext) (now : ℚ) (key : Int)
    (pending : List Int) (s : UIState) : UIState × Bool :=
  if s.command_mode then processCommandInput ext now key pending s
  else if key = KEY_ENTER ∨ key = 10 ∨ key = 13 then (send_message fs now s, false)
  else if key = 12 then (enter_command_mode s, false)
  else if key = KEY_UP then (recallUp s, false)
  else if key = KEY_DOWN then (recallDown s, false)
  else if key = KEY_LEFT then (mainLeft s, false)
  else if key = KEY_RIGHT then (mainRight s, false)
  else if key = KEY_BACKSPACE ∨ key = 127 then (mainBackspace s, false)
  else if key = 27 then handleCommand ext now "exit".toList s
  else (mainInsert key pending s, false)


/-! ### Concrete states used by witnesses and counterexamples -/

/-- The input-buffer invariant `0 ≤ cursorOffset ≤ length(text)` of the
spec data model. -/
def bufInv (text : Str) (pos : Int) : Prop := 0 ≤ pos ∧ pos ≤ (text.length : Int)

/-- The buffer invariant for all three buffer/cursor pairs of the state
(main input, command input, and the saved main input). -/
def Inv (s : UIState) : Prop :=
  bufInv s.current_input s.cursor_pos ∧
  bufInv s.command_input s.command_cursor_pos ∧
  bufInv s.saved_input s.saved_cursor_pos

/-- A 50-byte file content. -/
def c1Content : Str := List.replicate 50 'x'

/-- A file system holding an existing 50-byte `notes.txt`. -/
def c1FS : FS := [⟨"notes.txt".toList, 50, c1Content⟩]

/-- The message text `{{:F notes.txt}}` (a file tag with a space after
`:F`, as in the spec scenario). -/
def c1Input : Str := "\x7b\x7b:F notes.txt\x7d\x7d".toList

/-- The message text `{{:Fnotes.txt}}` (the same tag without the space). -/
def c1InputNoSpace : Str := "\x7b\x7b:Fnotes.txt\x7d\x7d".toList

/-- A conversation log just after submission: a user message followed by
the seeded assistant placeholder. -/
def c2Log : List Message := [⟨.user, "hi".toList⟩, ⟨.assistant, thinkingText⟩]

/-- A minimal provider profile. -/
def cfg0 : ChatConfig := ⟨[], [], [], [], "openai".toList, [], false⟩

/-- External-collaborator results where every selector is cancelled. -/
def ext0 : Ext := ⟨none, none, none, false, Except.error [], Except.ok (), Except.ok (), 0, 0⟩

/-- The freshly initialised UI state (empty buffers and log). -/
def baseState : UIState := ⟨[], 0, false, [], 0, [], 0, [], -1, [], [], [], cfg0, 0, false, [], []⟩

/-- A state whose main input consists of one blank character. -/
def c8state : UIState := { baseState with current_input := " ".toList }

/-- A state whose main input is the non-blank text `hi`. -/
def w8state : UIState := { baseState with current_input := "hi".toList }

/-- A state whose main input is the spaced file tag of the C1 scenario. -/
def c1state : UIState := { baseState with current_input := c1Input }

/-! ### Helper lemmas: stream accumulation and truncation -/

lemma truncMarker_pos : 0 < truncMarker.length := by decide

lemma accumStep_big (acc d : Str) (h : MAX_MESSAGE_LENGTH < acc.length + d.length) :
    (accumStep acc d).length = MAX_MESSAGE_LENGTH + truncMarker.length ∧
    truncMarker <:+ accumStep acc d := by
  have hl : MAX_MESSAGE_LENGTH < (acc ++ d).length := by
    simp only [List.length_append]; omega
  simp only [accumStep, if_pos hl]
  constructor
  · simp only [List.length_append, List.length_take]
    simp only [List.length_append] at hl
    omega
  · exact List.suffix_append _ _

lemma accumStep_keeps (acc d : Str)
    (h : acc.length = MAX_MESSAGE_LENGTH + truncMarker.length ∧ truncMarker <:+ acc) :
    (accumStep acc d).length = MAX_MESSAGE_LENGTH + truncMarker.length ∧
    truncMarker <:+ accumStep acc d :=
  accumStep_big acc d (by have := truncMarker_pos; omega)

lemma accumStep_small (acc d : Str) (h : acc.length + d.length ≤ MAX_MESSAGE_LENGTH) :
    accumStep acc d = acc ++ d := by
  simp only [accumStep, List.length_append]
  rw [if_neg (by omega)]

lemma foldl_accum_keeps (ds : List Str) :
    ∀ f : Str, f.length = MAX_MESSAGE_LENGTH + truncMarker.length ∧ truncMarker <:+ f →
    (List.foldl accumStep f ds).length = MAX_MESSAGE_LENGTH + truncMarker.length ∧
    truncMarker <:+ List.foldl accumStep f ds := by
  induction ds with
  | nil => intro f h; exact h
  | cons d rest ih =>
    intro f h
    exact ih _ (accumStep_keeps f d h)

lemma foldl_accum_overflow (ds : List Str) :
    ∀ acc : Str, acc.length ≤ MAX_MESSAGE_LENGTH →
    MAX_MESSAGE_LENGTH < acc.length + (ds.map List.length).sum →
    (List.foldl accumStep acc ds).length = MAX_MESSAGE_LENGTH + truncMarker.length ∧
    truncMarker <:+ List.foldl accumStep acc ds := by
  induction ds with
  | nil => intro acc h1 h2; simp only [List.map_nil, List.sum_nil] at h2; omega
  | cons d rest ih =>
    intro acc h1 h2
    simp only [List.map_cons, List.sum_cons] at h2
    by_cases hb : MAX_MESSAGE_LENGTH < acc.length + d.length
    · exact foldl_accum_keeps rest _ (accumStep_big acc d hb)
    · push_neg at hb
      rw [List.foldl_cons, accumStep_small acc d hb]
      exact ih (acc ++ d) (by simp only [List.length_append]; omega)
        (by simp only [List.length_append]; omega)

lemma set_last_append (msgs : List Message) (p x : Message) :
    (msgs ++ [p]).set ((msgs ++ [p]).length - 1) x = msgs ++ [x] := by
  induction msgs with
  | nil => simp
  | cons m ms ih =>
    have hlen2 : (ms ++ [p]).length - 1 = ms.length := by simp
    rw [hlen2] at ih
    have hlen : (m :: (ms ++ [p])).length - 1 = ms.length + 1 := by simp
    show (m :: (ms ++ [p])).set ((m :: (ms ++ [p])).length - 1) x = m :: (ms ++ [x])
    rw [hlen, List.set_cons_succ, ih]

lemma processDeltasGo_spec (ds : List Str) :
    ∀ (ms : List Message) (acc : Str), ds ≠ [] →
    (processDeltasGo ms acc ds).2 = List.foldl accumStep acc ds ∧
    (processDeltasGo ms acc ds).1 =
      ms.set (ms.length - 1) ⟨.assistant, List.foldl accumStep acc ds⟩ := by
  induction ds with
  | nil => intro ms acc h; exact absurd rfl h
  | cons d rest ih =>
    intro ms acc _
    cases rest with
    | nil => simp [processDeltasGo]
    | cons e es =>
      have h2 := ih (ms.set (ms.length - 1) ⟨.assistant, accumStep acc d⟩)
        (accumStep acc d) (by simp)
      have hstep : processDeltasGo ms acc (d :: e :: es) =
          processDeltasGo (ms.set (ms.length - 1) ⟨.assistant, accumStep acc d⟩)
            (accumStep acc d) (e :: es) := rfl
      rw [hstep, List.foldl_cons]
      refine ⟨h2.1, ?_⟩
      rw [h2.2]
      simp [List.length_set, List.set_set]

/-! ### Helper lemmas: the transmission window -/

lemma sendTransform_role (fs : FS) (m : Message) :
    (sendTransform fs m).role = m.role := by
  unfold sendTransform
  split <;> rfl

lemma nonSys_cons_sys (fs : FS) (m : Message) (ms : List Message)
    (h : (m.role == Role.system) = true) :
    nonSystemTransformed fs (m :: ms) = nonSystemTransformed fs ms := by
  simp [nonSystemTransformed, List.filter_cons, h]

lemma nonSys_cons_nonsys (fs : FS) (m : Message) (ms : List Message)
    (h : (m.role == Role.system) = false) :
    nonSystemTransformed fs (m :: ms) =
      sendTransform fs m :: nonSystemTransformed fs ms := by
  simp [nonSystemTransformed, List.filter_cons, h]

lemma buildStep_window (fs : FS) (msgs : List Message) :
    ∀ acc : List Message, acc.length ≤ 10 →
    msgs.foldl (buildStep fs) acc =
      (acc ++ nonSystemTransformed fs msgs).drop
        ((acc ++ nonSystemTransformed fs msgs).length - 10) := by
  induction msgs with
  | nil =>
    intro acc h
    have h0 : acc.length - 10 = 0 := by omega
    simp [nonSystemTransformed, h0]
  | cons m ms ih =>
    intro acc h
    rcases hb : (m.role == Role.system) with _ | _
    · rw [List.foldl_cons, nonSys_cons_nonsys fs m ms hb]
      by_cases hlt : acc.length < 10
      · have hstep : buildStep fs acc m = acc ++ [sendTransform fs m] := by
          simp [buildStep, hb, hlt]
        rw [hstep, ih (acc ++ [sendTransform fs m]) (by simp; omega)]
        simp [List.append_assoc]
      · have h10 : acc.length = 10 := by omega
        have hstep : buildStep fs acc m = acc.drop 1 ++ [sendTransform fs m] := by
          simp [buildStep, hb, hlt]
        rw [hstep, ih (acc.drop 1 ++ [sendTransform fs m])
          (by simp [List.length_drop]; omega)]
        have hrw : acc.drop 1 ++ [sendTransform fs m] ++ nonSystemTransformed fs ms =
            (acc ++ (sendTransform fs m :: nonSystemTransformed fs ms)).drop 1 := by
          rw [List.drop_append_of_le_length (by omega)]
          simp
        rw [hrw, List.drop_drop]
        congr 1
        simp [List.length_drop, List.length_append, h10]
        omega
    · rw [List.foldl_cons, nonSys_cons_sys fs m ms hb]
      have hstep : buildStep fs acc m = acc := by simp [buildStep, hb]
      rw [hstep]
      exact ih acc h

/-! ### Helper lemmas: state projections untouched by rendering -/

@[simp] lemma redraw_current_input (now : ℚ) (f : Bool) (s : UIState) :
    (redraw now f s).current_input = s.current_input := by
  unfold redraw; split <;> rfl

@[simp] lemma redraw_cursor_pos (now : ℚ) (f : Bool) (s : UIState) :
    (redraw now f s).cursor_pos = s.cursor_pos := by
  unfold redraw; split <;> rfl

@[simp] lemma redraw_command_input (now : ℚ) (f : Bool) (s : UIState) :
    (redraw now f s).command_input = s.command_input := by
  unfold redraw; split <;> rfl

@[simp] lemma redraw_command_cursor_pos (now : ℚ) (f : Bool) (s : UIState) :
    (redraw now f s).command_cursor_pos = s.command_cursor_pos := by
  unfold redraw; split <;> rfl

@[simp] lemma redraw_saved_input (now : ℚ) (f : Bool) (s : UIState) :
    (redraw now f s).saved_input = s.saved_input := by
  unfold redraw; split <;> rfl

@[simp] lemma redraw_saved_cursor_pos (now : ℚ) (f : Bool) (s : UIState) :
    (redraw now f s).saved_cursor_pos = s.saved_cursor_pos := by
  unfold redraw; split <;> rfl

@[simp] lemma redraw_input_history (now : ℚ) (f : Bool) (s : UIState) :
    (redraw now f s).input_history = s.input_history := by
  unfold redraw; split <;> rfl

@[simp] lemma redraw_history_index (now : ℚ) (f : Bool) (s : UIState) :
    (redraw now f s).history_index = s.history_index := by
  unfold redraw; split <;> rfl

@[simp] lemma redraw_command_mode (now : ℚ) (f : Bool) (s : UIState) :
    (redraw now f s).command_mode = s.command_mode := by
  unfold redraw; split <;> rfl

@[simp] lemma addSystemMessage_current_input (now : ℚ) (m : Str) (s : UIState) :
    (addSystemMessage now m s).current_input = s.current_input := by
  unfold addSystemMessage; simp

@[simp] lemma addSystemMessage_cursor_pos (now : ℚ) (m : Str) (s : UIState) :
    (addSystemMessage now m s).cursor_pos = s.cursor_pos := by
  unfold addSystemMessage; simp

@[simp] lemma addSystemMessage_command_input (now : ℚ) (m : Str) (s : UIState) :
    (addSystemMessage now m s).command_input = s.command_input := by
  unfold addSystemMessage; simp

@[simp] lemma addSystemMessage_command_cursor_pos (now : ℚ) (m : Str) (s : UIState) :
    (addSystemMessage now m s).command_cursor_pos = s.command_cursor_pos := by
  unfold addSystemMessage; simp

@[simp] lemma addSystemMessage_saved_input (now : ℚ) (m : Str) (s : UIState) :
    (addSystemMessage now m s).saved_input = s.saved_input := by
  unfold addSystemMessage; simp

@[simp] lemma addSystemMessage_saved_cursor_pos (now : ℚ) (m : Str) (s : UIState) :
    (addSystemMessage now m s).saved_cursor_pos = s.saved_cursor_pos := by
  unfold addSystemMessage; simp

@[simp] lemma addSystemMessage_input_history (now : ℚ) (m : Str) (s : UIState) :
    (addSystemMessage now m s).input_history = s.input_history := by
  unfold addSystemMessage; simp

@[simp] lemma addSystemMessage_history_index (now : ℚ) (m : Str) (s : UIState) :
    (addSystemMessage now m s).history_index = s.history_index := by
  unfold addSystemMessage; simp

@[simp] lemma addSystemMessage_command_mode (now : ℚ) (m : Str) (s : UIState) :
    (addSystemMessage now m s).command_mode = s.command_mode := by
  unfold addSystemMessage; simp

/-! ### Helper lemmas: the cursor invariant -/

lemma bufInv_nil : bufInv [] 0 := ⟨le_refl 0, by simp⟩

lemma bufInv_end (t : Str) : bufInv t (t.length : Int) :=
  ⟨Int.natCast_nonneg _, le_refl _⟩

lemma inv_redraw (now : ℚ) (f : Bool) (s : UIState) (h : Inv s) :
    Inv (redraw now f s) := by
  obtain ⟨h1, h2, h3⟩ := h
  exact ⟨by simpa using h1, by simpa using h2, by simpa using h3⟩

lemma inv_addSystemMessage (now : ℚ) (m : Str) (s : UIState) (h : Inv s) :
    Inv (addSystemMessage now m s) := by
  obtain ⟨h1, h2, h3⟩ := h
  exact ⟨by simpa using h1, by simpa using h2, by simpa using h3⟩

lemma inv_enter (s : UIState) (h : Inv s) : Inv (enter_command_mode s) :=
  ⟨bufInv_nil, bufInv_nil, h.1⟩

lemma inv_exit (b : Bool) (s : UIState) (h : Inv s) : Inv (exit_command_mode b s) := by
  obtain ⟨h1, h2, h3⟩ := h
  unfold exit_command_mode
  split
  · exact ⟨h3, h2, bufInv_nil⟩
  · exact ⟨bufInv_nil, h2, bufInv_nil⟩

lemma bufInv_insertAt (t : Str) (p : Int) (c : Str) (h : bufInv t p) :
    bufInv (insertAt t p c).1 (insertAt t p c).2 := by
  obtain ⟨h0, h1⟩ := h
  constructor
  · simp only [insertAt]
    omega
  · simp only [insertAt, List.length_append, List.length_take, List.length_drop]
    omega

lemma bufInv_backspaceAt (t : Str) (p : Int) (h : bufInv t p) :
    bufInv (backspaceAt t p).1 (backspaceAt t p).2 := by
  obtain ⟨h0, h1⟩ := h
  unfold backspaceAt
  split
  · constructor
    · omega
    · simp only [List.length_append, List.length_take, List.length_drop]
      omega
  · exact ⟨h0, h1⟩

lemma inv_send_message (fs : FS) (now : ℚ) (s : UIState) (h : Inv s) :
    Inv (send_message fs now s) := by
  unfold send_message
  split
  · exact h
  · obtain ⟨h1, h2, h3⟩ := h
    exact ⟨bufInv_nil, by simpa using h2, by simpa using h3⟩

lemma inv_cmdFile (ext : Ext) (s : UIState) (h : Inv s) : Inv (cmdFile ext s) := by
  unfold cmdFile
  cases ext.selectedFile with
  | none => exact h
  | some p =>
    simp only
    split
    · exact ⟨h.1, h.2.1, bufInv_end _⟩
    · exact ⟨h.1, h.2.1, bufInv_end _⟩

lemma inv_load_history (now : ℚ) (o : Except Str SavedData) (p : Str)
    (s : UIState) (h : Inv s) : Inv (load_history now o p s) := by
  obtain ⟨h1, h2, h3⟩ := h
  unfold load_history
  cases o with
  | error e => exact inv_addSystemMessage _ _ _ ⟨h1, h2, h3⟩
  | ok data =>
    exact ⟨by simp [bufInv] at h1 ⊢; omega, by simp [bufInv] at h2 ⊢; omega,
      by simp [bufInv] at h3 ⊢; omega⟩

lemma inv_cmdSave (ext : Ext) (now : ℚ) (cmd : Str) (s : UIState) (h : Inv s) :
    Inv (cmdSave ext now cmd s) := by
  unfold cmdSave
  apply inv_redraw
  cases ext.saveResult <;> exact inv_addSystemMessage _ _ _ h

lemma inv_cmdLoad (ext : Ext) (now : ℚ) (cmd : Str) (s : UIState) (h : Inv s) :
    Inv (cmdLoad ext now cmd s) := by
  unfold cmdLoad
  simp only
  split
  · split
    · exact inv_redraw _ _ _ (inv_load_history _ _ _ _ h)
    · exact inv_addSystemMessage _ _ _ h
  · split
    · exact inv_redraw _ _ _ (inv_load_history _ _ _ _ h)
    · exact inv_redraw _ _ _ h

lemma inv_cmdClean (ext : Ext) (now : ℚ) (s : UIState) (h : Inv s) :
    Inv (cmdClean ext now s) := by
  unfold cmdClean
  apply inv_redraw
  split
  · cases ext.cleanResult <;>
      exact inv_addSystemMessage _ _ _ (inv_redraw _ _ _ (inv_addSystemMessage _ _ _ h))
  · exact inv_addSystemMessage _ _ _ (inv_redraw _ _ _ (inv_addSystemMessage _ _ _ h))

lemma inv_handleCommand (ext : Ext) (now : ℚ) (cmd : Str) (s : UIState) (h : Inv s) :
    Inv (handleCommand ext now cmd s).1 := by
  unfold handleCommand
  split
  · exact inv_cmdFile _ _ h
  · split
    · apply inv_redraw
      cases ext.selectedConfig with
      | some c => exact inv_addSystemMessage _ _ _ h
      | none => exact h
    · split
      · exact inv_redraw _ _ _ (inv_addSystemMessage _ _ _ h)
      · split
        · exact inv_cmdSave _ _ _ _ h
        · split
          · exact inv_cmdLoad _ _ _ _ h
          · split
            · exact inv_redraw _ _ _ h
            · split
              · exact inv_cmdClean _ _ _ h
              · split
                · exact h
                · exact inv_addSystemMessage _ _ _ h

lemma inv_commandSubmit (ext : Ext) (now : ℚ) (s : UIState) (h : Inv s) :
    Inv (commandSubmit ext now s) :=
  inv_exit _ _ (inv_handleCommand _ _ _ _ h)

lemma inv_commandBackspace (s : UIState) (h : Inv s) : Inv (commandBackspace s) :=
  ⟨h.1, bufInv_backspaceAt _ _ h.2.1, h.2.2⟩

lemma inv_commandLeft (s : UIState) (h : Inv s) : Inv (commandLeft s) := by
  obtain ⟨h1, ⟨h0, hl⟩, h3⟩ := h
  refine ⟨h1, ⟨?_, ?_⟩, h3⟩ <;>
  · unfold commandLeft
    dsimp only
    split <;> omega

lemma inv_commandRight (s : UIState) (h : Inv s) : Inv (commandRight s) := by
  obtain ⟨h1, ⟨h0, hl⟩, h3⟩ := h
  refine ⟨h1, ⟨?_, ?_⟩, h3⟩ <;>
  · unfold commandRight
    dsimp only
    split <;> omega

lemma inv_commandInsert (key : Int) (pending : List Int) (s : UIState) (h : Inv s) :
    Inv (commandInsert key pending s) := by
  unfold commandInsert
  cases decodeKeyCommand key pending with
  | none => exact h
  | some c => exact ⟨h.1, bufInv_insertAt _ _ _ h.2.1, h.2.2⟩

lemma inv_processCommandInput (ext : Ext) (now : ℚ) (key : Int)
    (pending : List Int) (s : UIState) (h : Inv s) :
    Inv (processCommandInput ext now key pending s).1 := by
  unfold processCommandInput
  split
  · exact inv_commandSubmit _ _ _ h
  · split
    · exact inv_exit _ _ h
    · split
      · exact inv_commandBackspace _ h
      · split
        · exact inv_commandLeft _ h
        · split
          · exact inv_commandRight _ h
          · exact inv_commandInsert _ _ _ h

lemma inv_recallUp (s : UIState) (h : Inv s) : Inv (recallUp s) := by
  unfold recallUp
  split
  · split
    · exact ⟨bufInv_end _, h.2.1, h.2.2⟩
    · exact h
  · exact h

lemma inv_recallDown (s : UIState) (h : Inv s) : Inv (recallDown s) := by
  unfold recallDown
  split
  · split
    · exact ⟨bufInv_end _, h.2.1, h.2.2⟩
    · split
      · exact ⟨bufInv_nil, h.2.1, h.2.2⟩
      · exact h
  · exact h

lemma inv_mainLeft (s : UIState) (h : Inv s) : Inv (mainLeft s) := by
  obtain ⟨⟨h0, hl⟩, h2, h3⟩ := h
  refine ⟨⟨?_, ?_⟩, h2, h3⟩ <;>
  · unfold mainLeft
    dsimp only
    split <;> omega

lemma inv_mainRight (s : UIState) (h : Inv s) : Inv (mainRight s) := by
  obtain ⟨⟨h0, hl⟩, h2, h3⟩ := h
  refine ⟨⟨?_, ?_⟩, h2, h3⟩ <;>
  · unfold mainRight
    dsimp only
    split <;> omega

lemma inv_mainBackspace (s : UIState) (h : Inv s) : Inv (mainBackspace s) :=
  ⟨bufInv_backspaceAt _ _ h.1, h.2.1, h.2.2⟩

lemma inv_mainInsert (key : Int) (pending : List Int) (s : UIState) (h : Inv s) :
    Inv (mainInsert key pending s) := by
  unfold mainInsert
  cases decodeKeyMain key pending with
  | none => exact h
  | some c => exact ⟨bufInv_insertAt _ _ _ h.1, h.2.1, h.2.2⟩

lemma inv_processInput (fs : FS) (ext : Ext) (now : ℚ) (key : Int)
    (pending : List Int) (s : UIState) (h : Inv s) :
    Inv (processInput fs ext now key pending s).1 := by
  unfold processInput
  split
  · exact inv_processCommandInput _ _ _ _ _ h
  · split
    · exact inv_send_message _ _ _ h
    · split
      · exact inv_enter _ h
      · split
        · exact inv_recallUp _ h
        · split
          · exact inv_recallDown _ h
          · split
            · exact inv_mainLeft _ h
            · split
              · exact inv_mainRight _ h
              · split
                · exact inv_mainBackspace _ h
                · split
                  · exact inv_handleCommand _ _ _ _ h
                  · exact inv_mainInsert _ _ _ h

/-! ### Helper lemmas: recall history -/

@[simp] lemma exit_command_mode_input_history (b : Bool) (s : UIState) :
    (exit_command_mode b s).input_history = s.input_history := by
  unfold exit_command_mode; split <;> rfl

@[simp] lemma cmdFile_input_history (ext : Ext) (s : UIState) :
    (cmdFile ext s).input_history = s.input_history := by
  unfold cmdFile
  cases ext.selectedFile with
  | none => rfl
  | some p => simp only; split <;> rfl

@[simp] lemma load_history_input_history (now : ℚ) (o : Except Str SavedData)
    (p : Str) (s : UIState) :
    (load_history now o p s).input_history = s.input_history := by
  unfold load_history
  cases o with
  | error e => simp
  | ok data => simp

@[simp] lemma cmdSave_input_history (ext : Ext) (now : ℚ) (cmd : Str) (s : UIState) :
    (cmdSave ext now cmd s).input_history = s.input_history := by
  unfold cmdSave
  cases ext.saveResult <;> simp

@[simp] lemma cmdLoad_input_history (ext : Ext) (now : ℚ) (cmd : Str) (s : UIState) :
    (cmdLoad ext now cmd s).input_history = s.input_history := by
  unfold cmdLoad
  simp only
  split
  · split <;> simp
  · split <;> simp

@[simp] lemma cmdClean_input_history (ext : Ext) (now : ℚ) (s : UIState) :
    (cmdClean ext now s).input_history = s.input_history := by
  unfold cmdClean
  split
  · cases ext.cleanResult <;> simp
  · simp

lemma handleCommand_input_history (ext : Ext) (now : ℚ) (cmd : Str) (s : UIState) :
    (handleCommand ext now cmd s).1.input_history = s.input_history := by
  unfold handleCommand
  split
  · simp
  · split
    · cases ext.selectedConfig <;> simp
    · split
      · simp
      · split
        · simp
        · split
          · simp
          · split
            · simp
            · split
              · simp
              · split
                · rfl
                · simp

lemma processCommandInput_input_history (ext : Ext) (now : ℚ) (key : Int)
    (pending : List Int) (s : UIState) :
    (processCommandInput ext now key pending s).1.input_history = s.input_history := by
  unfold processCommandInput
  split
  · simp [commandSubmit, handleCommand_input_history]
  · split
    · simp
    · split
      · simp [commandBackspace]
      · split
        · simp [commandLeft]
        · split
          · simp [commandRight]
          · unfold commandInsert
            cases decodeKeyCommand key pending <;> simp

lemma send_message_pushes (fs : FS) (now : ℚ) (s : UIState)
    (h : pyStrip s.current_input ≠ []) :
    (send_message fs now s).input_history = s.current_input :: s.input_history ∧
    (send_message fs now s).history_index = -1 := by
  unfold send_message
  rw [if_neg h]
  constructor <;> simp

/-! ### Helper lemmas: redraw throttling -/

lemma redraw_forced (now : ℚ) (s : UIState) :
    redraw now true s =
      { s with last_redraw_time := now,
               redrawCalls := s.redrawCalls ++ [(true, true)] } := by
  unfold redraw
  rw [if_neg]
  simp

@[simp] lemma redraw_forced_calls (now : ℚ) (s : UIState) :
    (redraw now true s).redrawCalls = s.redrawCalls ++ [(true, true)] := by
  rw [redraw_forced]

@[simp] lemma addSystemMessage_calls (now : ℚ) (m : Str) (s : UIState) :
    (addSystemMessage now m s).redrawCalls = s.redrawCalls ++ [(true, true)] := by
  unfold addSystemMessage
  simp

lemma redraw_dropped (now : ℚ) (s : UIState)
    (h : now - s.last_redraw_time < redraw_throttle) :
    redraw now false s = { s with redrawCalls := s.redrawCalls ++ [(false, false)] } := by
  unfold redraw
  rw [if_pos ⟨rfl, h⟩]

lemma handleCommand_clear_calls (ext : Ext) (now : ℚ) (s : UIState) :
    (handleCommand ext now "clear".toList s).1.redrawCalls =
      s.redrawCalls ++ [(true, true), (true, true)] := by
  unfold handleCommand
  rw [if_neg (by decide), if_neg (by decide), if_pos (by decide)]
  simp

/-! ### Helper lemmas: key decoding -/

lemma collectBytes_eq : ∀ (n : Nat) (p : List Int),
    collectBytesMain n p = collectBytesCommand n p := by
  intro n
  induction n with
  | zero => intro p; rfl
  | succ m ih =>
    intro p
    cases p with
    | nil => rfl
    | cons k rest =>
      unfold collectBytesMain collectBytesCommand
      split
      · rw [ih]
      · rfl

lemma collectBytes_valid : ∀ (n : Nat) (p : List Int),
    (collectBytesMain n p).all (fun b => decide (0 ≤ b ∧ b ≤ 255)) = true := by
  intro n
  induction n with
  | zero => intro p; rfl
  | succ m ih =>
    intro p
    cases p with
    | nil => rfl
    | cons k rest =>
      unfold collectBytesMain
      split
      · rename_i hk
        simp only [List.all_cons, Bool.and_eq_true]
        exact ⟨by simp [hk.2.1, hk.2.2], ih rest⟩
      · rfl

lemma decode_eq (key : Int) (pending : List Int) :
    decodeKeyMain key pending = decodeKeyCommand key pending := by
  unfold decodeKeyMain decodeKeyCommand
  rw [collectBytes_eq]

lemma decode_out_of_range (key : Int) (pending : List Int)
    (h : key < 0 ∨ 1114111 < key) :
    decodeKeyMain key pending = none := by
  unfold decodeKeyMain
  rw [if_pos h]

lemma decode_fallback (key : Int) (pending : List Int) (h1 : 127 < key)
    (h2 : key ≤ 255)
    (hd : utf8DecodeBytes ((key :: collectBytesMain 2 pending).map Int.toNat) = none) :
    decodeKeyMain key pending = some [Char.ofNat key.toNat] := by
  unfold decodeKeyMain
  rw [if_neg (by omega), if_pos h1]
  simp only [List.all_cons, Bool.and_eq_true]
  rw [if_pos ⟨by simp; omega, collectBytes_valid 2 pending⟩, hd]


/-! ### Claim theorems -/

/-- C1: the spec scenario demands that a submitted message containing the
tag `{{:F notes.txt}}` (with `notes.txt` existing at 50 bytes) be stored
and displayed in compact tag form while the copy handed to the network
client has every tag occurrence replaced by the file bytes in a labelled
fenced block.  The first two conjuncts evaluate `send_message` at that
message: the stored log keeps the compact tag (as claimed), but the
payload handed to the network client still contains the unreplaced tag,
because `replace_file_tags` strips the captured path and then searches for
the tag rebuilt without the space.  The third conjunct shows the same tag
without a space is replaced exactly as specified, so the strip-then-miss
is a slip, not intent. -/
theorem C1_spaced_tag_not_replaced :
    (send_message c1FS 0 c1state).messages =
      [⟨.user, c1Input⟩, ⟨.assistant, thinkingText⟩] ∧
    (send_message c1FS 0 c1state).sentPayloads = [[⟨.user, c1Input⟩]] ∧
    replace_file_tags c1FS c1InputNoSpace =
      fileBlock "notes.txt".toList c1Content := by
  decide

/-- C2 (counterexample): after a background exchange that produced no
content deltas, the conversation log still contains an assistant message
whose content is exactly the seeded placeholder `正在思考...`, contradicting
the claim that no assistant message is left containing the placeholder. -/
theorem C2_counterexample_placeholder_left :
    (processDeltas c2Log []).any
      (fun m => m.role == Role.assistant && m.content == thinkingText) = true := by
  decide

/-- C2 (amended): a background exchange completing with no content deltas
appends exactly one system notice `<AI未返回有效响应>` and leaves the rest of
the log — in particular the assistant message still holding the
`正在思考...` placeholder — unchanged. -/
theorem C2_empty_result_notice (ms : List Message) :
    processDeltas ms [] = ms ++ [⟨.system, noResponseText⟩] := by
  simp [processDeltas, processDeltasGo]

/-- C3: whenever the total length of the streamed content deltas exceeds
`MAX_MESSAGE_LENGTH`, the assistant message stored in the conversation log
(in place of the seeded placeholder) has length exactly
`MAX_MESSAGE_LENGTH` plus the length of the truncation marker and ends
with that marker. -/
theorem C3_stream_truncation (msgs : List Message) (deltas : List Str)
    (h : MAX_MESSAGE_LENGTH < (deltas.map List.length).sum) :
    processDeltas (msgs ++ [⟨.assistant, thinkingText⟩]) deltas =
      msgs ++ [⟨.assistant, streamAccum deltas⟩] ∧
    (streamAccum deltas).length = MAX_MESSAGE_LENGTH + truncMarker.length ∧
    truncMarker <:+ streamAccum deltas := by
  have hne : deltas ≠ [] := by
    rintro rfl; simp [MAX_MESSAGE_LENGTH] at h
  have hP := foldl_accum_overflow deltas [] (by simp [MAX_MESSAGE_LENGTH])
    (by simpa using h)
  have hgo := processDeltasGo_spec deltas (msgs ++ [⟨.assistant, thinkingText⟩]) [] hne
  refine ⟨?_, hP.1, hP.2⟩
  simp only [processDeltas]
  rw [hgo.1, hgo.2]
  have hempty : ¬ (List.foldl accumStep [] deltas).isEmpty = true := by
    rw [List.isEmpty_iff_length_eq_zero]
    have hx := hP.1
    have hy := truncMarker_pos
    omega
  rw [if_neg hempty, set_last_append]
  rfl

/-- C3 (witness): a single delta of 5001 characters exceeds the maximum,
and the stored accumulator has length `MAX_MESSAGE_LENGTH` plus the
marker length and ends with the marker. -/
theorem C3_stream_truncation_witness :
    MAX_MESSAGE_LENGTH < (([List.replicate 5001 'a']).map List.length).sum ∧
    ((streamAccum [List.replicate 5001 'a']).length =
        MAX_MESSAGE_LENGTH + truncMarker.length ∧
      truncMarker <:+ streamAccum [List.replicate 5001 'a']) := by
  have h : MAX_MESSAGE_LENGTH < (([List.replicate 5001 'a']).map List.length).sum := by
    simp only [List.map_cons, List.map_nil, List.length_replicate, List.sum_cons,
      List.sum_nil, MAX_MESSAGE_LENGTH]
    norm_num
  exact ⟨h, (C3_stream_truncation [] _ h).2⟩

/-- C4: the message list handed to the network client by `send_message`
equals the trailing window of at most the last 10 non-system messages of
the conversation (transformed by file-tag expansion on user messages),
with the oldest dropped first, and it contains no system-role message. -/
theorem C4_transmission_window (fs : FS) (msgs : List Message) :
    buildMessagesToSend fs msgs =
      (nonSystemTransformed fs msgs).drop
        ((nonSystemTransformed fs msgs).length - 10) ∧
    (buildMessagesToSend fs msgs).all (fun m => !(m.role == Role.system)) = true := by
  have h := buildStep_window fs msgs [] (by simp)
  have h1 : buildMessagesToSend fs msgs =
      (nonSystemTransformed fs msgs).drop
        ((nonSystemTransformed fs msgs).length - 10) := by
    simpa [buildMessagesToSend] using h
  refine ⟨h1, ?_⟩
  rw [h1, List.all_eq_true]
  intro x hx
  have hx2 : x ∈ nonSystemTransformed fs msgs := List.mem_of_mem_drop hx
  simp only [nonSystemTransformed, List.mem_map] at hx2
  obtain ⟨y, hy, rfl⟩ := hx2
  have hy2 := (List.mem_filter.mp hy).2
  simpa [sendTransform_role] using hy2

/-- C5: entering command mode saves the main-input buffer (text and
cursor) aside, and cancelling command mode with the escape key restores
both verbatim — enter followed by cancel is the identity on the main
input buffer. -/
theorem C5_command_mode_roundtrip (s : UIState) (ext : Ext) (now : ℚ)
    (pending : List Int) :
    (enter_command_mode s).saved_input = s.current_input ∧
    (enter_command_mode s).saved_cursor_pos = s.cursor_pos ∧
    (processCommandInput ext now 27 pending (enter_command_mode s)).1.current_input
      = s.current_input ∧
    (processCommandInput ext now 27 pending (enter_command_mode s)).1.cursor_pos
      = s.cursor_pos := by
  refine ⟨rfl, rfl, ?_, ?_⟩ <;>
  · unfold processCommandInput
    rw [if_neg (by decide), if_pos rfl]
    simp [exit_command_mode, enter_command_mode]

/-- C6: inserting a character at a cursor position within bounds and then
deleting backward at the advanced cursor restores the original text and
cursor exactly, and delete-backward at position 0 is a no-op on both text
and cursor. -/
theorem C6_insert_delete_identity (text : Str) (pos : Int) (c : Char)
    (h0 : 0 ≤ pos) (h1 : pos ≤ (text.length : Int)) :
    backspaceAt (insertAt text pos [c]).1 (insertAt text pos [c]).2 = (text, pos) ∧
    backspaceAt text 0 = (text, 0) := by
  constructor
  · obtain ⟨n, rfl⟩ : ∃ m : Nat, pos = (m : Int) :=
      ⟨pos.toNat, (Int.toNat_of_nonneg h0).symm⟩
    have hn : n ≤ text.length := by exact_mod_cast h1
    have htk : (text.take n).length = n := by simp [List.length_take, hn]
    have key1 : (text.take n ++ ([c] ++ text.drop n)).take n = text.take n := by
      have h := List.take_left (text.take n) ([c] ++ text.drop n)
      rwa [htk] at h
    have key2 : (text.take n ++ ([c] ++ text.drop n)).drop (n + 1) = text.drop n := by
      have h := List.drop_left (text.take n ++ [c]) (text.drop n)
      have hl : (text.take n ++ [c]).length = n + 1 := by simp [htk]
      rw [hl] at h
      simpa [List.append_assoc] using h
    have e2 : ((n : Int) + 1).toNat = n + 1 := by omega
    have e3 : ((n : Int)).toNat = n := by omega
    simp only [insertAt, backspaceAt, List.length_singleton, Nat.cast_one, e3]
    rw [if_pos (by omega : (0 : Int) < (n : Int) + 1)]
    rw [show ((n : Int) + 1 - 1) = (n : Int) from by omega, e3, e2]
    simp only [List.append_assoc]
    rw [key1, key2, List.take_append_drop]
  · simp [backspaceAt]

/-- C6 (witness): the identity law applied at text `ab`, cursor 1,
character `c`. -/
theorem C6_insert_delete_identity_witness :
    (0 : Int) ≤ 1 ∧ (1 : Int) ≤ ("ab".toList.length : Int) ∧
    (backspaceAt (insertAt "ab".toList 1 ['c']).1 (insertAt "ab".toList 1 ['c']).2 =
        ("ab".toList, 1) ∧
      backspaceAt "ab".toList 0 = ("ab".toList, 0)) := by
  exact ⟨by decide, by decide,
    C6_insert_delete_identity "ab".toList 1 'c' (by decide) (by decide)⟩

/-- C7: every key-processing operation — in both normal and command mode,
covering insert, delete-backward, cursor movement, recall up/down, submit,
and mode enter/exit — preserves the invariant
`0 ≤ cursorOffset ≤ length(text)` for the main input buffer, the command
input buffer, and the saved main-input buffer. -/
theorem C7_cursor_invariant (fs : FS) (ext : Ext) (now : ℚ) (key : Int)
    (pending : List Int) (s : UIState) (h : Inv s) :
    Inv (processInput fs ext now key pending s).1 :=
  inv_processInput fs ext now key pending s h

/-- C7 (witness): the invariant holds of the initial state and is
preserved by processing the key `a` (code 97). -/
theorem C7_cursor_invariant_witness :
    Inv baseState ∧ Inv (processInput [] ext0 0 97 [] baseState).1 :=
  have h : Inv baseState := ⟨bufInv_nil, bufInv_nil, bufInv_nil⟩
  ⟨h, C7_cursor_invariant [] ext0 0 97 [] baseState h⟩

/-- C8 (counterexample): submitting a main input consisting of one blank
character does not push it onto the recall history — `send_message`
returns early on blank input — contradicting the claim that every
submission of the main input pushes the current text. -/
theorem C8_counterexample_blank_submission :
    ¬ ((send_message [] 0 c8state).input_history =
        c8state.current_input :: c8state.input_history) := by
  decide

/-- C8 (amended): submitting a non-blank main input pushes the text to
the front of the recall history and resets the recall index to `-1`
(a blank submission is ignored entirely); processing any key in command
mode, including command submission, never modifies the recall history. -/
theorem C8_recall_history_push :
    (∀ (fs : FS) (now : ℚ) (s : UIState), pyStrip s.current_input ≠ [] →
      (send_message fs now s).input_history = s.current_input :: s.input_history ∧
      (send_message fs now s).history_index = -1) ∧
    (∀ (ext : Ext) (now : ℚ) (key : Int) (pending : List Int) (s : UIState),
      (processCommandInput ext now key pending s).1.input_history =
        s.input_history) :=
  ⟨send_message_pushes, processCommandInput_input_history⟩

/-- C8 (witness): submitting the non-blank input `hi` pushes it; the
escape key in command mode leaves the recall history unchanged. -/
theorem C8_recall_history_push_witness :
    pyStrip w8state.current_input ≠ [] ∧
    (send_message [] 0 w8state).input_history =
      w8state.current_input :: w8state.input_history ∧
    (processCommandInput ext0 0 27 [] baseState).1.input_history =
      baseState.input_history := by
  have h : pyStrip w8state.current_input ≠ [] := by decide
  exact ⟨h, (C8_recall_history_push.1 [] 0 w8state h).1,
    C8_recall_history_push.2 ext0 0 27 [] baseState⟩

/-- C9: a non-forced full-redraw request arriving less than the 100 ms
throttle interval after the previous performed redraw does nothing except
record the dropped request (in particular `last_redraw_time` is not
updated and no drawing happens); a forced request always redraws; and the
clear-conversation command issues exactly two full-redraw requests, both
with `force = true` and both performed. -/
theorem C9_redraw_throttle :
    (∀ (now : ℚ) (s : UIState), now - s.last_redraw_time < redraw_throttle →
      redraw now false s =
        { s with redrawCalls := s.redrawCalls ++ [(false, false)] }) ∧
    (∀ (now : ℚ) (s : UIState),
      redraw now true s =
        { s with last_redraw_time := now,
                 redrawCalls := s.redrawCalls ++ [(true, true)] }) ∧
    (∀ (ext : Ext) (now : ℚ) (s : UIState),
      (handleCommand ext now "clear".toList s).1.redrawCalls =
        s.redrawCalls ++ [(true, true), (true, true)]) :=
  ⟨redraw_dropped, redraw_forced, handleCommand_clear_calls⟩

/-- C9 (witness): a non-forced request 10 ms after the last redraw is
dropped, and the clear command always issues forced, performed redraws. -/
theorem C9_redraw_throttle_witness :
    ((1 : ℚ)/100 - baseState.last_redraw_time < redraw_throttle) ∧
    redraw ((1 : ℚ)/100) false baseState =
      { baseState with redrawCalls := baseState.redrawCalls ++ [(false, false)] } ∧
    (handleCommand ext0 0 "clear".toList baseState).1.redrawCalls =
      baseState.redrawCalls ++ [(true, true), (true, true)] := by
  have h : (1 : ℚ)/100 - baseState.last_redraw_time < redraw_throttle := by
    show (1 : ℚ)/100 - 0 < 1/10
    norm_num
  exact ⟨h, C9_redraw_throttle.1 _ _ h, C9_redraw_throttle.2.2 ext0 0 baseState⟩

/-- C10: the multi-byte key-decoding routine behaves identically in the
main input path and the command input path; key codes outside the Unicode
code-point range are discarded silently; and a UTF-8 decode failure on a
collected byte sequence falls back to the lead byte alone. -/
theorem C10_decoder_equivalence :
    (∀ (key : Int) (pending : List Int),
      decodeKeyMain key pending = decodeKeyCommand key pending) ∧
    (∀ (key : Int) (pending : List Int), (key < 0 ∨ 1114111 < key) →
      decodeKeyMain key pending = none) ∧
    (∀ (key : Int) (pending : List Int), 127 < key → key ≤ 255 →
      utf8DecodeBytes ((key :: collectBytesMain 2 pending).map Int.toNat) = none →
      decodeKeyMain key pending = some [Char.ofNat key.toNat]) :=
  ⟨decode_eq, decode_out_of_range, decode_fallback⟩

/-- C10 (witness): lead byte 200 followed by the non-continuation byte 65
fails UTF-8 decoding and falls back to the lead byte in both paths, and
the out-of-range code `0x110000` is discarded. -/
theorem C10_decoder_equivalence_witness :
    decodeKeyMain 200 [65] = decodeKeyCommand 200 [65] ∧
    ((1114112 : Int) < 0 ∨ 1114111 < (1114112 : Int)) ∧
    decodeKeyMain 1114112 [] = none ∧
    (127 < (200 : Int) ∧ (200 : Int) ≤ 255 ∧
      utf8DecodeBytes (((200 : Int) :: collectBytesMain 2 [65]).map Int.toNat) = none) ∧
    decodeKeyMain 200 [65] = some [Char.ofNat (200 : Int).toNat] := by
  refine ⟨C10_decoder_equivalence.1 200 [65], by norm_num,
    C10_decoder_equivalence.2.1 1114112 [] (by norm_num),
    ⟨by norm_num, by norm_num, by decide⟩,
    C10_decoder_equivalence.2.2 200 [65] (by norm_num) (by norm_num) (by decide)⟩

end AICli
